import Mathlib

/-!
Verification of the VUnit run-script `sim/run.py` of the neorv32-vunit
repository.

The script builds a VUnit project (libraries, glob-expanded source files, a
test-bench generic binding, simulator options) and then `_gen_vhdl_ls`
serializes the library/file structure of the project into `vhdl_ls.toml`
for the VHDL-LS language server.

The emitter `_gen_vhdl_ls` is present in the source and is embedded
faithfully below (section headers, `json.dumps(files, indent=4)` rendering,
backslash normalization, truncating write).  The builder operations
(`add_library`, `add_source_files`, `test_bench(...).set_generic`,
`set_sim_option`) live inside the external VUnit package whose code is not
part of this repository; they are modelled from the specification where so
marked.
-/

namespace NeorvVunit

/-! ## Data model -/

/-- A project library: a name plus the ordered list of source-file paths,
mirroring `lib.name` and `lib._source_files` as read by `_gen_vhdl_ls`
(paths are kept as strings, the result of `str(file)`). -/
structure Library where
  name : String
  source_files : List String
deriving DecidableEq, Repr

/-- Modelled from the spec: generic/simulator-option values are a tagged
variant of the scalar kinds actually bound by the script (boolean, integer,
string, list of strings), with no implicit coercion across kinds. -/
inductive GenValue where
  | bool (b : Bool)
  | int (n : Int)
  | str (s : String)
  | strList (l : List String)
deriving DecidableEq, Repr

/-- A registered test-bench entry: owning library, unit name, and the
ordered generic bindings. -/
structure TestBench where
  library_name : String
  tb_name : String
  generics : List (String × GenValue)
deriving DecidableEq, Repr

/-- The project graph: libraries in registration order, test-bench entries,
and global simulator options. -/
structure Project where
  libraries : List Library
  test_benches : List TestBench
  sim_options : List (String × GenValue)
deriving DecidableEq, Repr

/-- The error taxonomy of the build phase. -/
inductive BuildError where
  | duplicateLibrary (name : String)
  | noMatch (pattern : String)
  | duplicateBinding (key : String)
deriving DecidableEq, Repr

/-! ## Builder operations (modelled from the spec; the implementations live
in the external VUnit package, not in this repository) -/

/-- Modelled from the spec: `create_library(name)` registers a new empty
library, failing with `DuplicateLibraryError` when the name already
exists; missing from the source, which only calls `PRJ.add_library`. -/
def addLibrary (p : Project) (name : String) : Except BuildError Project :=
  if (p.libraries.map Library.name).contains name then
    .error (.duplicateLibrary name)
  else
    .ok { p with libraries := p.libraries ++ [⟨name, []⟩] }

/-- Lexicographic comparison of character lists by code point, the order a
Python `sorted` applies to path strings. -/
def charListLe : List Char → List Char → Bool
  | [], _ => true
  | _ :: _, [] => false
  | a :: as, b :: bs =>
      if a.toNat < b.toNat then true
      else if b.toNat < a.toNat then false
      else charListLe as bs

/-- Code-point lexicographic order on path strings. -/
def StrLe (a b : String) : Prop := charListLe a.data b.data = true

instance : DecidableRel StrLe := fun a b => by unfold StrLe; infer_instance

/-- Modelled from the spec: glob expansion is a pure oracle from pattern to
match list, and the builder appends each pattern's matches in sorted-match
order; missing from the source, which only calls `add_source_files`. -/
def sortedMatches (glob : String → List String) (pat : String) : List String :=
  List.insertionSort StrLe (glob pat)

/-- Modelled from the spec: `add_sources(library, patterns)` appends, for
each pattern in order, the sorted matches to the library's file list, and
fails with `NoMatchError` on a pattern with zero matches (strict mode);
missing from the source, which only calls `NEORV32.add_source_files`. -/
def addSourceFiles (glob : String → List String) (p : Project)
    (libName : String) (patterns : List String) : Except BuildError Project :=
  match patterns.find? (fun pat => (glob pat).isEmpty) with
  | some pat => .error (.noMatch pat)
  | none =>
      .ok { p with
            libraries := p.libraries.map fun lib =>
              if lib.name = libName then
                { lib with source_files :=
                    lib.source_files ++ patterns.flatMap (sortedMatches glob) }
              else lib }

/-- Modelled from the spec: `set_generic(handle, key, value)` binds one
generic, failing with `DuplicateBindingError` when `key` is already bound
on that handle; missing from the source, which only calls `set_generic`. -/
def tbSetGeneric (tb : TestBench) (key : String) (v : GenValue) :
    Except BuildError TestBench :=
  if (tb.generics.lookup key).isSome then
    .error (.duplicateBinding key)
  else
    .ok { tb with generics := tb.generics ++ [(key, v)] }

/-- Modelled from the spec: `register_test_bench` + `set_generic` at the
project level.  The handle for `(libName, tbName)` is looked up (or
registered on first touch, validation of the unit being deferred to the
simulator), and the binding is added through `tbSetGeneric`. -/
def projSetGeneric (p : Project) (libName tbName key : String)
    (v : GenValue) : Except BuildError Project :=
  let isTb : TestBench → Bool := fun t =>
    t.library_name == libName && t.tb_name == tbName
  let tb := (p.test_benches.find? isTb).getD ⟨libName, tbName, []⟩
  match tbSetGeneric tb key v with
  | .error e => .error e
  | .ok tb2 =>
      .ok { p with
            test_benches := (p.test_benches.filter fun t => !(isTb t)) ++ [tb2] }

/-- Modelled from the spec: `set_simulator_option(key, value)` inserts or
overwrites a global option, last write for a key wins; missing from the
source, which only calls `PRJ.set_sim_option`. -/
def setSimOption (p : Project) (key : String) (v : GenValue) : Project :=
  { p with sim_options := (p.sim_options.filter fun kv => kv.1 ≠ key) ++ [(key, v)] }

/-! ## The script's build phase -/

/-- The environment a run of `sim/run.py` observes: the command-line
arguments, the libraries pre-registered by the VUnit builtins
(`add_vhdl_builtins`, `add_com`, `add_verification_components`,
`add_osvvm`), and the filesystem glob oracle. -/
structure Env where
  argv : List String
  builtinLibs : List Library
  glob : String → List String

/-- The parsed `--ci-mode` flag: `store_true` with default `False`, so the
value is `true` exactly when the flag appears on the command line. -/
def ciMode (argv : List String) : Bool := argv.contains "--ci-mode"

/-- First glob pattern of the script: `ROOT / "*.vhd"`, kept
`ROOT`-relative. -/
def pat1 : String := "*.vhd"

/-- Second glob pattern of the script:
`ROOT / ".." / "neorv32" / "rtl" / "**" / "*.vhd"`, kept `ROOT`-relative. -/
def pat2 : String := "../neorv32/rtl/**/*.vhd"

/-- The build phase of `sim/run.py`: add library `neorv32`, add its source
files from the two glob patterns, bind the `ci_mode` generic of
`neorv32_vunit_tb` from the parsed flag, and set the two simulator
options. -/
def scriptBuild (env : Env) : Except BuildError Project := do
  let p1 ← addLibrary ⟨env.builtinLibs, [], []⟩ "neorv32"
  let p2 ← addSourceFiles env.glob p1 "neorv32" [pat1, pat2]
  let p3 ← projSetGeneric p2 "neorv32" "neorv32_vunit_tb" "ci_mode"
            (.bool (ciMode env.argv))
  pure (setSimOption
    (setSimOption p3 "disable_ieee_warnings" (.bool true))
    "ghdl.sim_flags" (.strList ["--max-stack-alloc=256"]))

/-! ## The emitter `_gen_vhdl_ls` (from the source)

The function iterates `vu._project.get_libraries()` and, for each library,
writes the section header and a `files = ...` line whose value is
`json.dumps(files, indent=4)` applied to the backslash-normalized paths. -/

/-- The path normalization applied per file:
`str(file).replace(chr(92), chr(47))` — every backslash becomes a forward
slash. -/
def normalizePath (s : String) : String :=
  ⟨s.data.map fun c => if c = '\\' then '/' else c⟩

/-- One hexadecimal digit, lower case, as produced by Python's
`json.dumps` unicode escapes. -/
def hexDigit (n : Nat) : Char :=
  if n < 10 then Char.ofNat (48 + n) else Char.ofNat (87 + n)

/-- Four-digit lower-case hex rendering of a code unit. -/
def hex4 (n : Nat) : List Char :=
  [hexDigit (n / 4096 % 16), hexDigit (n / 256 % 16),
   hexDigit (n / 16 % 16), hexDigit (n % 16)]

/-- JSON escaping of one character as done by `json.dumps` with its default
`ensure_ascii=True`: characters in `0x20..0x7E` other than the quote and
the backslash are literal, the short escapes cover the usual control
characters, and everything else becomes `\uXXXX` (a surrogate pair beyond
the BMP). -/
def jsonEscapeChar (c : Char) : List Char :=
  if c = '"' then ['\\', '"']
  else if c = '\\' then ['\\', '\\']
  else if c = '\n' then ['\\', 'n']
  else if c = '\t' then ['\\', 't']
  else if c = '\r' then ['\\', 'r']
  else if c = Char.ofNat 8 then ['\\', 'b']
  else if c = Char.ofNat 12 then ['\\', 'f']
  else if 0x20 ≤ c.toNat ∧ c.toNat ≤ 0x7E then [c]
  else if c.toNat ≤ 0xFFFF then '\\' :: 'u' :: hex4 c.toNat
  else
    let v := c.toNat - 0x10000
    ('\\' :: 'u' :: hex4 (0xD800 + v / 1024)) ++
      ('\\' :: 'u' :: hex4 (0xDC00 + v % 1024))

/-- The escaped body of the JSON rendering of a string. -/
def escapeChars (s : String) : List Char :=
  s.data.flatMap jsonEscapeChar

/-- The JSON rendering of one string, quotes included. -/
def jsonStringChars (s : String) : List Char :=
  '"' :: escapeChars s ++ ['"']

/-- One indented list element of `json.dumps(files, indent=4)`: four spaces
then the JSON string. -/
def itemChars (f : String) : List Char :=
  '\x20' :: '\x20' :: '\x20' :: '\x20' :: jsonStringChars f

/-- The tail of `json.dumps(files, indent=4)` for a non-empty list: the
elements separated by a comma-newline, then a newline and the closing
bracket. -/
def itemsChars : List String → List Char
  | [] => []
  | [f] => itemChars f ++ ['\n', ']']
  | f :: fs => itemChars f ++ [',', '\n'] ++ itemsChars fs

/-- `json.dumps(files, indent=4)`: the empty list renders flat as two
brackets, a non-empty list renders one element per line. -/
def jsonDumpsIndent4 (files : List String) : String :=
  match files with
  | [] => ⟨['[', ']']⟩
  | _ => ⟨'[' :: '\n' :: itemsChars files⟩

/-- The text one iteration of the emitter loop writes for one library: the
two `f.write` calls of `_gen_vhdl_ls` — the section header line, then the
`files = ...` line over the normalized paths. -/
def libSection (lib : Library) : String :=
  "[libraries." ++ lib.name ++ "]\n" ++
    "files = " ++ jsonDumpsIndent4 (lib.source_files.map normalizePath) ++ "\n"

/-- The emitter run: starting from the project (read-only) and an empty
file, each library appends its section to the file content.  The first
component is the project graph as the emitter leaves it, the second the
final file content. -/
def emit (p : Project) : Project × String :=
  p.libraries.foldl (fun acc lib => (acc.1, acc.2 ++ libSection lib)) (p, "")

/-- A filesystem as a map from path to content.  Emitting opens the
destination with mode `w` (truncate) and writes the emitted content,
leaving every other path untouched. -/
def emitTo (fs : String → Option String) (dest : String) (p : Project) :
    String → Option String :=
  fun q => if q = dest then some (emit p).2 else fs q

/-- The fixed destination of the artifact:
`Path(run.py).parent.parent / vhdl_ls.toml`, i.e. `vhdl_ls.toml` directly
under the repository root. -/
def vhdlLsPath (root : String) : String := root ++ "/vhdl_ls.toml"

/-- The whole script run over a filesystem: the build phase, then — only
when it succeeded — `_gen_vhdl_ls` writing the artifact at the fixed
path.  Returns the filesystem afterwards and the build outcome. -/
def runScript (env : Env) (root : String) (fs : String → Option String) :
    (String → Option String) × Except BuildError Unit :=
  match scriptBuild env with
  | .error e => (fs, .error e)
  | .ok p => (emitTo fs (vhdlLsPath root) p, .ok ())

/-! ## A structured-text reader for the emitted artifact

A reader for the exact dialect the emitter writes: a sequence of
`[libraries.NAME]` headers each followed by a `files = [...]` JSON
list-of-strings value (pretty-printed with indent 4).  Used to state the
round-trip property. -/

/-- Consume an expected literal prefix. -/
def dropPrefixC : List Char → List Char → Option (List Char)
  | [], l => some l
  | _ :: _, [] => none
  | p :: ps, c :: cs => if c = p then dropPrefixC ps cs else none

/-- Split at the first occurrence of `stop`, consuming it. -/
def splitAtChar (stop : Char) : List Char → Option (List Char × List Char)
  | [] => none
  | c :: cs =>
      if c = stop then some ([], cs)
      else match splitAtChar stop cs with
           | some (a, b) => some (c :: a, b)
           | none => none

/-- Decode one short JSON escape character. -/
def unescapeChar (e : Char) : Option Char :=
  if e = '"' then some '"'
  else if e = '\\' then some '\\'
  else if e = '/' then some '/'
  else if e = 'n' then some '\n'
  else if e = 't' then some '\t'
  else if e = 'r' then some '\r'
  else if e = 'b' then some (Char.ofNat 8)
  else if e = 'f' then some (Char.ofNat 12)
  else none

/-- Read a JSON string body up to the closing quote (the opening quote is
already consumed), handling the short escapes. -/
def parseStringBody : List Char → Option (List Char × List Char)
  | [] => none
  | c :: rest =>
      if c = '"' then some ([], rest)
      else if c = '\\' then
        match rest with
        | [] => none
        | e :: rest2 =>
            match unescapeChar e with
            | some d =>
                match parseStringBody rest2 with
                | some (a, b) => some (d :: a, b)
                | none => none
            | none => none
      else
        match parseStringBody rest with
        | some (a, b) => some (c :: a, b)
        | none => none

/-- Read the elements of a non-empty indent-4 JSON string list: each line
is four spaces, a string, then either a comma-newline continuing the list
or a newline and the closing bracket. -/
def parseItems : Nat → List Char → Option (List String × List Char)
  | 0, _ => none
  | fuel + 1, l =>
      match dropPrefixC ['\x20', '\x20', '\x20', '\x20', '"'] l with
      | none => none
      | some l1 =>
          match parseStringBody l1 with
          | none => none
          | some (sChars, l2) =>
              match l2 with
              | x :: y :: rest =>
                  if x = ',' ∧ y = '\n' then
                    match parseItems fuel rest with
                    | some (more, rest2) => some (⟨sChars⟩ :: more, rest2)
                    | none => none
                  else if x = '\n' ∧ y = ']' then some ([⟨sChars⟩], rest)
                  else none
              | _ => none

/-- Read one `json.dumps(..., indent=4)` list-of-strings value. -/
def parseFilesValue : List Char → Option (List String × List Char)
  | a :: c :: rest =>
      if a = '[' then
        if c = ']' then some ([], rest)
        else if c = '\n' then parseItems rest.length rest
        else none
      else none
  | _ => none

/-- Read the sequence of library sections; empty input is the empty
mapping. -/
def parseSections : Nat → List Char → Option (List (String × List String))
  | _, [] => some []
  | 0, _ :: _ => none
  | fuel + 1, c :: cs => do
      let l1 ← dropPrefixC "[libraries.".data (c :: cs)
      let (nameChars, l2) ← splitAtChar ']' l1
      let l3 ← dropPrefixC "\nfiles = ".data l2
      let (files, l4) ← parseFilesValue l3
      let l5 ← dropPrefixC ['\n'] l4
      let rest ← parseSections fuel l5
      pure ((⟨nameChars⟩, files) :: rest)

/-- The structured-text reader for the whole artifact. -/
def parseVhdlLs (s : String) : Option (List (String × List String)) :=
  parseSections (s.data.length + 1) s.data

/-! ## Auxiliary definitions for stating properties -/

/-- The bound value of one generic: look up the test-bench handle for
`(libName, tbName)` and then the binding for `key`. -/
def lookupGeneric (p : Project) (libName tbName key : String) : Option GenValue :=
  match p.test_benches.find? (fun t =>
      t.library_name == libName && t.tb_name == tbName) with
  | some tb => tb.generics.lookup key
  | none => none

/-- A character that JSON renders literally: printable ASCII other than
the quote and the backslash. -/
def PlainChar (c : Char) : Prop :=
  c ≠ '"' ∧ c ≠ '\\' ∧ 0x20 ≤ c.toNat ∧ c.toNat ≤ 0x7E

instance : DecidablePred PlainChar := fun c => by unfold PlainChar; infer_instance

/-! ## Concrete fixtures used to witness the theorems -/

/-- A glob oracle for the scenario of the spec: the first pattern matches
`a.vhd` and `b.vhd` (listed unsorted, to exercise sorted-match order), the
second matches `rtl/core.vhd`. -/
def globSample : String → List String := fun pat =>
  if pat = pat1 then ["b.vhd", "a.vhd"]
  else if pat = pat2 then ["rtl/core.vhd"]
  else []

/-- The scenario environment, CI flag absent. -/
def envSample : Env := ⟨[], [], globSample⟩

/-- The scenario environment with the CI flag supplied. -/
def envSampleCi : Env := ⟨["--ci-mode"], [], globSample⟩

/-- An environment whose filesystem matches no pattern at all. -/
def envNoMatch : Env := ⟨[], [], fun _ => []⟩

/-- The empty filesystem. -/
def fsEmpty : String → Option String := fun _ => none

/-- The project graph the script builds in `envSample`. -/
def projSample : Project :=
  ⟨[⟨"neorv32", ["a.vhd", "b.vhd", "rtl/core.vhd"]⟩],
   [⟨"neorv32", "neorv32_vunit_tb", [("ci_mode", .bool false)]⟩],
   [("disable_ieee_warnings", .bool true),
    ("ghdl.sim_flags", .strList ["--max-stack-alloc=256"])]⟩

/-- The project graph the script builds in `envSampleCi`. -/
def projSampleCi : Project :=
  ⟨[⟨"neorv32", ["a.vhd", "b.vhd", "rtl/core.vhd"]⟩],
   [⟨"neorv32", "neorv32_vunit_tb", [("ci_mode", .bool true)]⟩],
   [("disable_ieee_warnings", .bool true),
    ("ghdl.sim_flags", .strList ["--max-stack-alloc=256"])]⟩

/-! ## Helper lemmas -/

theorem stringJoin_nil : String.join [] = "" := rfl

theorem stringJoin_cons (a : String) (l : List String) :
    String.join (a :: l) = a ++ String.join l := by
  apply String.ext
  simp [String.join_eq, String.data_append]

theorem emit_foldl (libs : List Library) (p : Project) (s : String) :
    List.foldl (fun acc lib => (acc.1, acc.2 ++ libSection lib)) (p, s) libs
      = (p, s ++ String.join (libs.map libSection)) := by
  induction libs generalizing s with
  | nil => simp [stringJoin_nil]
  | cons l ls ih =>
      simp only [List.foldl_cons, List.map_cons, stringJoin_cons, ih,
        String.append_assoc]

/-- The emitter is a pure projection: it returns the graph untouched paired
with the concatenation of the per-library sections. -/
theorem emit_eq (p : Project) :
    emit p = (p, String.join (p.libraries.map libSection)) := by
  unfold emit
  rw [emit_foldl]
  simp

/-- C9: running the emitter leaves the project graph unchanged — the
libraries with their file lists, the test-bench entries with their generic
bindings, and the simulator options are the same before and after
emission. -/
theorem emit_graph_unchanged (p : Project) : (emit p).1 = p := by
  rw [emit_eq]

/-- C2: two emissions of the same unchanged project graph, over any two
filesystems and to any two destinations, produce byte-identical
contents. -/
theorem emit_byte_identical (fs1 fs2 : String → Option String)
    (d1 d2 : String) (p : Project) :
    emitTo fs1 d1 p d1 = emitTo fs2 d2 p d2 := by
  simp [emitTo]

/-- C10: the emitter opens the destination in truncating write mode, so the
final content at the destination is exactly the emitted text whatever the
filesystem held there before, and a graph with zero libraries emits the
empty file. -/
theorem emit_truncating_write (fs1 fs2 : String → Option String)
    (dest : String) (p : Project) :
    emitTo fs1 dest p dest = some (emit p).2 ∧
    emitTo fs1 dest p dest = emitTo fs2 dest p dest ∧
    (emit ⟨[], [], []⟩).2 = "" :=
  ⟨by simp [emitTo], by simp [emitTo], rfl⟩

/-- C8: when any build-phase operation fails, the run aborts with the
builder's error and the emitter never writes — the filesystem is returned
unchanged. -/
theorem builder_error_no_emit (env : Env) (root : String)
    (fs : String → Option String) (e : BuildError)
    (h : scriptBuild env = .error e) : (runScript env root fs).1 = fs := by
  unfold runScript
  rw [h]

/-- Witness for C8: with a filesystem matching no pattern, the build phase
fails with `NoMatchError` on the first pattern and the artifact path stays
unwritten. -/
theorem builder_error_no_emit_witness :
    scriptBuild envNoMatch = .error (.noMatch pat1) ∧
    (runScript envNoMatch "repo" fsEmpty).1 = fsEmpty :=
  ⟨rfl, builder_error_no_emit envNoMatch "repo" fsEmpty (.noMatch pat1) rfl⟩

/-- C4: every file path rendered by the emitter goes through
`normalizePath`, whose result contains no backslash separator, whatever
convention the host filesystem used in the stored path. -/
theorem emitted_path_forward_slash (p : Project) (lib : Library) (f : String)
    (_hlib : lib ∈ p.libraries) (_hf : f ∈ lib.source_files) :
    ('\\' : Char) ∉ (normalizePath f).data := by
  intro hc
  simp only [normalizePath, List.mem_map] at hc
  obtain ⟨a, -, ha⟩ := hc
  by_cases h : a = '\\'
  · rw [if_pos h] at ha
    exact absurd ha (by decide)
  · rw [if_neg h] at ha
    exact h ha

/-- Witness for C4: a Windows-style stored path inside a concrete graph is
rendered without backslashes. -/
theorem emitted_path_forward_slash_witness :
    (⟨"neorv32", ["dir\\core.vhd"]⟩ : Library)
        ∈ (⟨[⟨"neorv32", ["dir\\core.vhd"]⟩], [], []⟩ : Project).libraries ∧
    ('\\' : Char) ∉ (normalizePath "dir\\core.vhd").data :=
  ⟨by simp, emitted_path_forward_slash ⟨[⟨"neorv32", ["dir\\core.vhd"]⟩], [], []⟩
    ⟨"neorv32", ["dir\\core.vhd"]⟩ "dir\\core.vhd" (by simp) (by simp)⟩

theorem lookup_append_key (l : List (String × GenValue)) (k : String)
    (v : GenValue) (h : l.lookup k = none) :
    (l ++ [(k, v)]).lookup k = some v := by
  induction l with
  | nil => simp [List.lookup]
  | cons hd tl ih =>
      obtain ⟨a, b⟩ := hd
      cases hk : k == a with
      | true => simp [List.lookup, hk] at h
      | false =>
          simp only [List.cons_append, List.lookup, hk] at h ⊢
          exact ih h

/-- C6: binding the same generic key twice on the same test-bench handle
fails with `DuplicateBindingError`, and the first binding's value is the
one retained on the handle. -/
theorem set_generic_duplicate_error (tb tb2 : TestBench) (key : String)
    (v1 v2 : GenValue) (h : tbSetGeneric tb key v1 = .ok tb2) :
    tbSetGeneric tb2 key v2 = .error (.duplicateBinding key) ∧
    tb2.generics.lookup key = some v1 := by
  unfold tbSetGeneric at h
  by_cases hb : (tb.generics.lookup key).isSome
  · rw [if_pos hb] at h
    exact absurd h (by simp)
  · rw [if_neg hb] at h
    injection h with h
    subst h
    have hnone : tb.generics.lookup key = none :=
      Option.not_isSome_iff_eq_none.mp hb
    have hl := lookup_append_key tb.generics key v1 hnone
    exact ⟨by simp [tbSetGeneric, hl], hl⟩

/-- Witness for C6: a second `ci_mode` binding on a concrete handle is
rejected and the first value survives. -/
theorem set_generic_duplicate_error_witness :
    tbSetGeneric ⟨"neorv32", "neorv32_vunit_tb", [("ci_mode", .bool true)]⟩
        "ci_mode" (.bool false) = .error (.duplicateBinding "ci_mode") ∧
    (⟨"neorv32", "neorv32_vunit_tb", [("ci_mode", .bool true)]⟩ :
        TestBench).generics.lookup "ci_mode" = some (.bool true) :=
  set_generic_duplicate_error ⟨"neorv32", "neorv32_vunit_tb", []⟩
    ⟨"neorv32", "neorv32_vunit_tb", [("ci_mode", .bool true)]⟩
    "ci_mode" (.bool true) (.bool false) rfl

theorem charListLe_total (l m : List Char) :
    charListLe l m = true ∨ charListLe m l = true := by
  induction l generalizing m with
  | nil => left; rfl
  | cons x xs ih =>
      cases m with
      | nil => right; rfl
      | cons y ys =>
          rcases Nat.lt_trichotomy x.toNat y.toNat with h | h | h
          · left; simp [charListLe, h]
          · have h1 : ¬ x.toNat < y.toNat := by omega
            have h2 : ¬ y.toNat < x.toNat := by omega
            simpa [charListLe, h1, h2] using ih ys
          · right; simp [charListLe, h]

theorem charListLe_trans (l m n : List Char) (h1 : charListLe l m = true)
    (h2 : charListLe m n = true) : charListLe l n = true := by
  induction l generalizing m n with
  | nil => rfl
  | cons x xs ih =>
      cases m with
      | nil => simp [charListLe] at h1
      | cons y ys =>
          cases n with
          | nil => simp [charListLe] at h2
          | cons z zs =>
              simp only [charListLe] at h1 h2 ⊢
              split_ifs at h1 h2 ⊢ <;>
                first
                  | rfl
                  | omega
                  | simp at h1
                  | simp at h2
                  | exact ih ys zs h1 h2

instance : IsTotal String StrLe :=
  ⟨fun a b => charListLe_total a.data b.data⟩

instance : IsTrans String StrLe :=
  ⟨fun a b c => charListLe_trans a.data b.data c.data⟩

/-- C3: a successful `add_sources` appends, to the addressed library only,
the per-pattern sorted matches in pattern order; each pattern's group is
sorted; and on the spec's scenario the resulting file list is exactly
`[a.vhd, b.vhd, rtl/core.vhd]`. -/
theorem add_sources_pattern_order :
    (∀ (glob : String → List String) (p : Project) (libName : String)
        (patterns : List String) (q : Project),
        addSourceFiles glob p libName patterns = .ok q →
        q.libraries = p.libraries.map fun lib =>
          if lib.name = libName then
            { lib with source_files :=
                lib.source_files ++ patterns.flatMap (sortedMatches glob) }
          else lib) ∧
    (∀ (glob : String → List String) (pat : String),
        (sortedMatches glob pat).Sorted StrLe) ∧
    addSourceFiles globSample ⟨[⟨"neorv32", []⟩], [], []⟩ "neorv32" [pat1, pat2]
      = .ok ⟨[⟨"neorv32", ["a.vhd", "b.vhd", "rtl/core.vhd"]⟩], [], []⟩ := by
  refine ⟨?_, ?_, rfl⟩
  · intro glob p libName patterns q h
    unfold addSourceFiles at h
    cases hf : patterns.find? (fun pat => (glob pat).isEmpty) with
    | some pat => rw [hf] at h; exact absurd h (by simp)
    | none => rw [hf] at h; injection h with h; rw [← h]
  · intro glob pat
    exact List.sorted_insertionSort StrLe (glob pat)

/-- Witness for C3: the general append law applied to the scenario
library. -/
theorem add_sources_pattern_order_witness :
    addSourceFiles globSample ⟨[⟨"neorv32", []⟩], [], []⟩ "neorv32" [pat1, pat2]
        = .ok ⟨[⟨"neorv32", ["a.vhd", "b.vhd", "rtl/core.vhd"]⟩], [], []⟩ ∧
    (⟨[⟨"neorv32", ["a.vhd", "b.vhd", "rtl/core.vhd"]⟩], [], []⟩ :
          Project).libraries
      = [⟨"neorv32", []⟩].map fun lib =>
          if lib.name = "neorv32" then
            { lib with source_files :=
                lib.source_files ++ [pat1, pat2].flatMap (sortedMatches globSample) }
          else lib :=
  ⟨rfl, add_sources_pattern_order.1 globSample ⟨[⟨"neorv32", []⟩], [], []⟩
    "neorv32" [pat1, pat2] _ rfl⟩

/-- C1: the emitted artifact is, library by library in registration order,
a `[libraries.NAME]` header followed by a `files = ...`
list-of-strings value over the library's normalized paths; and a
successful run writes it at the fixed repository-root-relative path
`vhdl_ls.toml`. -/
theorem emit_writes_sections :
    (∀ p : Project, (emit p).2 = String.join (p.libraries.map fun lib =>
        "[libraries." ++ lib.name ++ "]\n" ++
          "files = " ++ jsonDumpsIndent4 (lib.source_files.map normalizePath)
            ++ "\n")) ∧
    ∀ (env : Env) (root : String) (fs : String → Option String) (p : Project),
      scriptBuild env = .ok p →
      (runScript env root fs).1 (vhdlLsPath root) = some (emit p).2 := by
  constructor
  · intro p
    rw [emit_eq]
    rfl
  · intro env root fs p h
    unfold runScript
    rw [h]
    simp [emitTo]

/-- Witness for C1: in the scenario environment, the run writes the emitted
text of the built graph at `repo/vhdl_ls.toml`. -/
theorem emit_writes_sections_witness :
    scriptBuild envSample = .ok projSample ∧
    (runScript envSample "repo" fsEmpty).1 (vhdlLsPath "repo")
      = some (emit projSample).2 :=
  ⟨rfl, emit_writes_sections.2 envSample "repo" fsEmpty projSample rfl⟩

/-- C5: in every successful run, the `ci_mode` generic of the test bench
`neorv32_vunit_tb` of library `neorv32` is bound, its value is the parsed
CI-mode flag, and it is `true` exactly when `--ci-mode` was supplied on
the command line. -/
theorem ci_mode_generic_from_flag (env : Env) (p : Project)
    (h : scriptBuild env = .ok p) :
    lookupGeneric p "neorv32" "neorv32_vunit_tb" "ci_mode"
        = some (.bool (ciMode env.argv)) ∧
    (lookupGeneric p "neorv32" "neorv32_vunit_tb" "ci_mode"
        = some (.bool true) ↔ "--ci-mode" ∈ env.argv) := by
  unfold scriptBuild at h
  cases h1 : addLibrary ⟨env.builtinLibs, [], []⟩ "neorv32" with
  | error e => rw [h1] at h; simp [Bind.bind, Except.bind] at h
  | ok p1 =>
      rw [h1] at h
      simp only [Bind.bind, Except.bind] at h
      have htb1 : p1.test_benches = [] := by
        unfold addLibrary at h1
        split at h1
        · exact absurd h1 (by simp)
        · injection h1 with h1; rw [← h1]
      cases h2 : addSourceFiles env.glob p1 "neorv32" [pat1, pat2] with
      | error e => rw [h2] at h; simp [Bind.bind, Except.bind] at h
      | ok p2 =>
          rw [h2] at h
          simp only [Bind.bind, Except.bind] at h
          have htb2 : p2.test_benches = [] := by
            unfold addSourceFiles at h2
            cases hf : [pat1, pat2].find? (fun pat => (env.glob pat).isEmpty) with
            | some pat => rw [hf] at h2; exact absurd h2 (by simp)
            | none => rw [hf] at h2; injection h2 with h2; rw [← h2]; exact htb1
          have h3 : projSetGeneric p2 "neorv32" "neorv32_vunit_tb" "ci_mode"
              (.bool (ciMode env.argv))
              = .ok { p2 with test_benches :=
                  [⟨"neorv32", "neorv32_vunit_tb",
                    [("ci_mode", .bool (ciMode env.argv))]⟩] } := by
            simp [projSetGeneric, tbSetGeneric, htb2, List.lookup]
          rw [h3] at h
          simp only [Bind.bind, Except.bind, pure, Except.pure,
            Except.ok.injEq] at h
          subst h
          have hlook : lookupGeneric
              (setSimOption (setSimOption
                { p2 with test_benches :=
                    [⟨"neorv32", "neorv32_vunit_tb",
                      [("ci_mode", GenValue.bool (ciMode env.argv))]⟩] }
                "disable_ieee_warnings" (.bool true))
                "ghdl.sim_flags" (.strList ["--max-stack-alloc=256"]))
              "neorv32" "neorv32_vunit_tb" "ci_mode"
              = some (.bool (ciMode env.argv)) := rfl
          refine ⟨hlook, ?_⟩
          rw [hlook]
          simp [ciMode, List.contains_iff_exists_mem_beq]

/-- Witness for C5: with `--ci-mode` on the command line, the built graph
binds `ci_mode` to `true`. -/
theorem ci_mode_generic_from_flag_witness :
    scriptBuild envSampleCi = .ok projSampleCi ∧
    lookupGeneric projSampleCi "neorv32" "neorv32_vunit_tb" "ci_mode"
      = some (.bool (ciMode envSampleCi.argv)) :=
  ⟨rfl, (ci_mode_generic_from_flag envSampleCi projSampleCi rfl).1⟩

/-! ## Round-trip of the emitted artifact through the reader -/

theorem dropPrefixC_append (p rest : List Char) :
    dropPrefixC p (p ++ rest) = some rest := by
  induction p with
  | nil => rfl
  | cons c cs ih => simp [dropPrefixC, ih]

theorem splitAtChar_append (stop : Char) (a rest : List Char) (h : stop ∉ a) :
    splitAtChar stop (a ++ stop :: rest) = some (a, rest) := by
  induction a with
  | nil => simp [splitAtChar]
  | cons c cs ih =>
      have hcs : stop ∉ cs := fun hm => h (List.mem_cons_of_mem c hm)
      have hne : c ≠ stop := fun he => h (he ▸ List.mem_cons_self c cs)
      simp [splitAtChar, hne, ih hcs]

theorem jsonEscapeChar_plain (c : Char) (h : PlainChar c) :
    jsonEscapeChar c = [c] := by
  obtain ⟨h1, h2, h3, h4⟩ := h
  have hn : c ≠ '\n' := by rintro rfl; simp at h3
  have ht : c ≠ '\t' := by rintro rfl; simp at h3
  have hr : c ≠ '\r' := by rintro rfl; simp at h3
  have hb : c ≠ Char.ofNat 8 := by rintro rfl; simp at h3
  have hf : c ≠ Char.ofNat 12 := by rintro rfl; simp at h3
  simp [jsonEscapeChar, h1, h2, hn, ht, hr, hb, hf, h3, h4]

theorem flatMap_escape_plain (l : List Char) (h : ∀ c ∈ l, PlainChar c) :
    l.flatMap jsonEscapeChar = l := by
  induction l with
  | nil => rfl
  | cons c cs ih =>
      rw [List.flatMap_cons, jsonEscapeChar_plain c (h c (List.mem_cons_self c cs)),
        ih fun x hx => h x (List.mem_cons_of_mem c hx)]
      rfl

theorem parseStringBody_plain (l rest : List Char) (h : ∀ c ∈ l, PlainChar c) :
    parseStringBody (l ++ '"' :: rest) = some (l, rest) := by
  induction l with
  | nil =>
      show parseStringBody ('"' :: rest) = some ([], rest)
      unfold parseStringBody
      simp
  | cons c cs ih =>
      have hc := h c (List.mem_cons_self c cs)
      have ihcs := ih fun x hx => h x (List.mem_cons_of_mem c hx)
      show parseStringBody (c :: (cs ++ '"' :: rest)) = some (c :: cs, rest)
      unfold parseStringBody
      simp [hc.1, hc.2.1, ihcs]

theorem normalizePath_plain (f : String) (h : ∀ c ∈ f.data, PlainChar c) :
    normalizePath f = f := by
  apply String.ext
  show f.data.map _ = f.data
  have hmap : ∀ c ∈ f.data, (if c = '\\' then '/' else c) = c := by
    intro c hc
    rw [if_neg (h c hc).2.1]
  calc f.data.map (fun c => if c = '\\' then '/' else c)
      = f.data.map id := List.map_congr_left hmap
    _ = f.data := List.map_id f.data

theorem itemsChars_length (files : List String) :
    files.length ≤ (itemsChars files).length := by
  induction files with
  | nil => simp [itemsChars]
  | cons f fs ih =>
      cases fs with
      | nil => simp [itemsChars]
      | cons g gs =>
          rw [show itemsChars (f :: g :: gs)
              = itemChars f ++ [',', '\n'] ++ itemsChars (g :: gs) from rfl]
          simp only [List.length_append, List.length_cons] at ih ⊢
          omega

theorem parseItems_emit : ∀ (files : List String) (rest : List Char) (fuel : Nat),
    files ≠ [] → files.length ≤ fuel →
    (∀ f ∈ files, ∀ c ∈ f.data, PlainChar c) →
    parseItems fuel (itemsChars files ++ rest) = some (files, rest) := by
  intro files
  induction files with
  | nil => intro rest fuel hne _ _; exact absurd rfl hne
  | cons f fs ih =>
      intro rest fuel hne hfuel h
      obtain ⟨k, rfl⟩ : ∃ k, fuel = k + 1 :=
        ⟨fuel - 1, by simp only [List.length_cons] at hfuel; omega⟩
      have hf := h f (List.mem_cons_self f fs)
      cases fs with
      | nil =>
          have hform : itemsChars [f] ++ rest
              = ['\x20', '\x20', '\x20', '\x20', '"']
                  ++ (f.data ++ ('"' :: ('\n' :: ']' :: rest))) := by
            simp [itemsChars, itemChars, jsonStringChars, escapeChars,
              flatMap_escape_plain f.data hf]
          rw [hform]
          unfold parseItems
          rw [dropPrefixC_append]
          simp [parseStringBody_plain f.data ('\n' :: ']' :: rest) hf]
      | cons g gs =>
          have hform : itemsChars (f :: g :: gs) ++ rest
              = ['\x20', '\x20', '\x20', '\x20', '"']
                  ++ (f.data ++ ('"' :: (',' :: '\n' ::
                        (itemsChars (g :: gs) ++ rest)))) := by
            simp [itemsChars, itemChars, jsonStringChars, escapeChars,
              flatMap_escape_plain f.data hf]
          rw [hform]
          unfold parseItems
          rw [dropPrefixC_append]
          have hrec := ih rest k (by simp)
            (by simp only [List.length_cons] at hfuel ⊢; omega)
            (fun x hx => h x (List.mem_cons_of_mem f hx))
          simp [parseStringBody_plain f.data
            (',' :: '\n' :: (itemsChars (g :: gs) ++ rest)) hf, hrec]

theorem parseFilesValue_dumps (files : List String) (rest : List Char)
    (h : ∀ f ∈ files, ∀ c ∈ f.data, PlainChar c) :
    parseFilesValue ((jsonDumpsIndent4 files).data ++ rest) = some (files, rest) := by
  cases files with
  | nil =>
      show parseFilesValue ('[' :: ']' :: rest) = some ([], rest)
      unfold parseFilesValue
      simp
  | cons f fs =>
      show parseFilesValue ('[' :: '\n' :: (itemsChars (f :: fs) ++ rest))
          = some (f :: fs, rest)
      unfold parseFilesValue
      have hfuel : (f :: fs).length ≤ (itemsChars (f :: fs)).length + rest.length := by
        have := itemsChars_length (f :: fs)
        omega
      simp [parseItems_emit (f :: fs) rest
        ((itemsChars (f :: fs)).length + rest.length) (by simp) hfuel h]



theorem libSection_data_append (lib : Library) (R : List Char) :
    (libSection lib).data ++ R
      = '[' :: ("libraries.".data ++ (lib.name.data ++ (']' ::
          ("\nfiles = ".data ++
            ((jsonDumpsIndent4 (lib.source_files.map normalizePath)).data
              ++ '\n' :: R))))) := by
  have e1 : "[libraries.".data
      = ['[', 'l', 'i', 'b', 'r', 'a', 'r', 'i', 'e', 's', '.'] := rfl
  have e2 : "]\n".data = [']', '\n'] := rfl
  have e3 : "files = ".data = ['f', 'i', 'l', 'e', 's', '\x20', '=', '\x20'] := rfl
  have e4 : "\n".data = ['\n'] := rfl
  have e5 : "libraries.".data = ['l', 'i', 'b', 'r', 'a', 'r', 'i', 'e', 's', '.'] := rfl
  have e6 : "\nfiles = ".data
      = ['\n', 'f', 'i', 'l', 'e', 's', '\x20', '=', '\x20'] := rfl
  simp [libSection, String.data_append, e1, e2, e3, e4, e5, e6]

theorem dropPrefixC_header (X : List Char) :
    dropPrefixC "[libraries.".data ('[' :: ("libraries.".data ++ X)) = some X := by
  rw [show ('[' :: ("libraries.".data ++ X)) = "[libraries.".data ++ X from rfl]
  exact dropPrefixC_append _ X

theorem sections_length (libs : List Library) :
    libs.length ≤ ((libs.map fun l => (libSection l).data).flatten).length := by
  induction libs with
  | nil => simp
  | cons lib libs ih =>
      rw [List.map_cons, List.flatten_cons]
      have h0 := libSection_data_append lib []
      rw [List.append_nil] at h0
      have h1 : 0 < (libSection lib).data.length := by rw [h0]; simp
      simp only [List.length_append, List.length_cons] at ih ⊢
      omega



theorem parseSections_emit : ∀ (libs : List Library) (fuel : Nat),
    libs.length ≤ fuel →
    (∀ lib ∈ libs, (']' : Char) ∉ lib.name.data) →
    (∀ lib ∈ libs, ∀ f ∈ lib.source_files, ∀ c ∈ f.data, PlainChar c) →
    parseSections fuel ((libs.map fun l => (libSection l).data).flatten)
      = some (libs.map fun l => (l.name, l.source_files)) := by
  intro libs
  induction libs with
  | nil =>
      intro fuel _ _ _
      cases fuel <;> rfl
  | cons lib libs ih =>
      intro fuel hfuel hnames hfiles
      obtain ⟨k, rfl⟩ : ∃ k, fuel = k + 1 :=
        ⟨fuel - 1, by simp only [List.length_cons] at hfuel; omega⟩
      have hname := hnames lib (List.mem_cons_self lib libs)
      have hfile := hfiles lib (List.mem_cons_self lib libs)
      have hplainNorm : lib.source_files.map normalizePath = lib.source_files := by
        have hid : ∀ f ∈ lib.source_files, normalizePath f = f :=
          fun f hf => normalizePath_plain f (hfile f hf)
        rw [List.map_congr_left hid]
        simp
      rw [List.map_cons, List.flatten_cons, libSection_data_append, hplainNorm]
      unfold parseSections
      rw [dropPrefixC_header]
      have hrec := ih k
        (by simp only [List.length_cons] at hfuel; omega)
        (fun l hl => hnames l (List.mem_cons_of_mem lib hl))
        (fun l hl => hfiles l (List.mem_cons_of_mem lib hl))
      have hfv := parseFilesValue_dumps lib.source_files
        ('\n' :: (libs.map fun l => (libSection l).data).flatten) hfile
      simp [Bind.bind, Option.bind, splitAtChar_append, hname, hfv,
        dropPrefixC, hrec]



/-- C7: for every project graph whose library names and stored file paths
are well-formed (names free of the section-closing bracket, paths plain
printable ASCII as glob-produced paths are), parsing the emitted artifact
back with the structured-text reader yields exactly the graph's own
library-name to file-list mapping, order preserved. -/
theorem vhdl_ls_round_trip (p : Project)
    (hnames : ∀ lib ∈ p.libraries, (']' : Char) ∉ lib.name.data)
    (hfiles : ∀ lib ∈ p.libraries, ∀ f ∈ lib.source_files, ∀ c ∈ f.data,
        PlainChar c) :
    parseVhdlLs (emit p).2
      = some (p.libraries.map fun lib => (lib.name, lib.source_files)) := by
  unfold parseVhdlLs
  rw [emit_eq]
  have hdata : (String.join (p.libraries.map libSection)).data
      = (p.libraries.map fun l => (libSection l).data).flatten := by
    rw [String.join_eq]
    simp only [List.map_map]
    rfl
  rw [hdata]
  exact parseSections_emit p.libraries _
    (le_trans (sections_length p.libraries) (Nat.le_succ _)) hnames hfiles

/-- Witness for C7: the scenario graph round-trips exactly. -/
theorem vhdl_ls_round_trip_witness :
    ((∀ lib ∈ projSample.libraries, (']' : Char) ∉ lib.name.data) ∧
      (∀ lib ∈ projSample.libraries, ∀ f ∈ lib.source_files, ∀ c ∈ f.data,
        PlainChar c)) ∧
    parseVhdlLs (emit projSample).2
      = some (projSample.libraries.map fun lib => (lib.name, lib.source_files)) :=
  ⟨⟨by decide, by decide⟩, vhdl_ls_round_trip projSample (by decide) (by decide)⟩


end NeorvVunit
